import Mathlib

/-!
Shallow embedding of the BentoAnalytics incremental APY-ingestion pipeline.

The JavaScript sources are translated as follows:
* JS numbers used as timestamps / block numbers are `ℤ`; contract readings,
  multipliers and APY values are `ℚ` (exact rational arithmetic in place of
  IEEE doubles; all claims below are about control flow, state carrying and
  exact formulas, not float rounding).
* The chain is an oracle function passed explicitly (`ℤ → Option _`);
  `none` models an unavailable block, a reverting call or empty return data.
* The InfluxDB write API is modelled by its trace: the list of points passed
  to `writePoint`, whether `flush()` was called, and the list of points
  durably committed (all buffered points if the flush succeeded, none if it
  failed or was never reached — flush is atomic per the sink contract).
* The JSON state files (`data/last_timestamp.json`,
  `data/ethena_last_block.json`) are explicit values threaded through the
  tracker functions; `absent` is a missing file, `corrupt` a file whose read
  or parse throws, `ok` a parsed JSON object.
-/

/-- One InfluxDB point as produced by the four fetch scripts:
`new Point(MEASUREMENT).tag("protocol", p).floatField("apy", a).floatField("weight", w).timestamp(ts)`. -/
structure Sample where
  protocol : String
  apy : ℚ
  weight : ℚ
  timestamp : ℤ
deriving DecidableEq

/-- JS `Number(x.toFixed(2))` on an exact rational: round to two decimal
places, ties away from zero toward +∞ (ECMAScript `toFixed` picks the larger
candidate integer on a tie). -/
def round2 (x : ℚ) : ℚ := ((⌊x * 100 + 1 / 2⌋ : ℤ) : ℚ) / 100

/-- The value `x` has at most two decimal places (an integer number of hundredths). -/
def twoDecimals (x : ℚ) : Prop := ∃ k : ℤ, x = (k : ℚ) / 100

/-- Terminal state of one ingestion run. -/
inductive RunOutcome
  | completed
  | skippedNoWork
  | aborted
deriving DecidableEq

/-- Observable result of one run: terminal state, final cursor value, the
points passed to `writePoint`, whether `flush()` was invoked, and the points
durably committed in the sink after the run. -/
structure RunResult where
  outcome : RunOutcome
  cursor : ℤ
  writes : List Sample
  flushCalled : Bool
  committed : List Sample
deriving DecidableEq

/-! ### utils/timestampTracker.js and utils/blockTracker.js -/

/-- State of `data/last_timestamp.json`: missing file, file whose read/parse
throws, or a parsed JSON object (ordered key/value pairs, as JS objects). -/
inductive TrackerFile
  | absent
  | corrupt
  | ok (entries : List (String × ℤ))
deriving DecidableEq

/-- JS property lookup `json[protocol]` on the parsed object; `none` is `undefined`. -/
def lookupEntry : List (String × ℤ) → String → Option ℤ
  | [], _ => none
  | (q, v) :: rest, p => if q = p then some v else lookupEntry rest p

/-- JS property assignment `data[protocol] = timestamp`: update in place if the
key exists, else append (JS objects keep insertion order). -/
def setEntry : List (String × ℤ) → String → ℤ → List (String × ℤ)
  | [], p, t => [(p, t)]
  | (q, v) :: rest, p, t => if q = p then (p, t) :: rest else (q, v) :: setEntry rest p t

/-- `getLastFetchedTimestamp(protocol)`: if the tracker file exists, read and
parse it and return `json[protocol]`; a read/parse error is caught and logged;
every other path falls off the function, returning `undefined` (`none`). -/
def getLastFetchedTimestamp : TrackerFile → String → Option ℤ
  | .absent, _ => none
  | .corrupt, _ => none
  | .ok entries, p => lookupEntry entries p

/-- `setLastFetchedTimestamp(protocol, timestamp)`: start from `{}` or the
parsed file, set the one key, write the file back. A parse error throws before
the write and is caught, leaving the file unchanged. -/
def setLastFetchedTimestamp : TrackerFile → String → ℤ → TrackerFile
  | .absent, p, t => .ok [(p, t)]
  | .corrupt, _, _ => .corrupt
  | .ok entries, p, t => .ok (setEntry entries p t)

/-- State of `data/ethena_last_block.json`: missing, unreadable/unparsable, or
a parsed JSON object whose `lastBlock` key may be present or missing. -/
inductive BlockFile
  | absent
  | corrupt
  | ok (lastBlock : Option ℤ)
deriving DecidableEq

/-- The default starting block number if no data is found (`INITIAL_BLOCK`). -/
def INITIAL_BLOCK : ℤ := 20206857

/-- `getLastProcessedBlock()`: returns `json.lastBlock` when the file exists
and parses (even if the key is missing, i.e. `undefined`); returns
`INITIAL_BLOCK` when the file is absent or reading/parsing throws. -/
def getLastProcessedBlock : BlockFile → Option ℤ
  | .absent => some INITIAL_BLOCK
  | .corrupt => some INITIAL_BLOCK
  | .ok b => b

/-! ### utils/timestampTracker.js — getBlockNumberByTimestamp -/

/-- Loop body of `getBlockNumberByTimestamp`: binary search over
`[earliest, latest]` keeping `closestBlock`, the last probed block whose
timestamp was below the target. `getBlock` is the provider; `none` models a
missing block, on which the loop breaks and the current best is returned.
The source's local `mid = Math.floor((earliest + latest) / 2)` is inlined
(`earliest` is always nonnegative here, so JS floor division agrees with
integer ediv). The fuel argument only bounds the iteration count; it is
always supplied large enough that the bounds cross first. -/
def gbnbtGo (getBlock : ℤ → Option ℤ) (targetTimestamp : ℤ) :
    Nat → ℤ → ℤ → ℤ → ℤ
  | 0, _, _, closestBlock => closestBlock
  | fuel + 1, earliest, latest, closestBlock =>
    if earliest ≤ latest then
      match getBlock ((earliest + latest) / 2) with
      | none => closestBlock
      | some ts =>
        if ts = targetTimestamp then (earliest + latest) / 2
        else if ts < targetTimestamp then
          gbnbtGo getBlock targetTimestamp fuel ((earliest + latest) / 2 + 1)
            latest ((earliest + latest) / 2)
        else
          gbnbtGo getBlock targetTimestamp fuel earliest
            ((earliest + latest) / 2 - 1) closestBlock
    else closestBlock

/-- `getBlockNumberByTimestamp(provider, targetTimestamp)`: binary search from
`earliest = 0` to `latest = provider.getBlockNumber()` with
`closestBlock = earliest`. The fuel `latestBlock + 2` exceeds the maximal
number of iterations (each step strictly shrinks the bracket). -/
def getBlockNumberByTimestamp (getBlock : ℤ → Option ℤ) (latestBlock : ℤ)
    (targetTimestamp : ℤ) : ℤ :=
  gbnbtGo getBlock targetTimestamp (latestBlock + 2).toNat 0 latestBlock 0

/-! ### scripts/spark.js — fetchSparkApy -/

/-- `SECONDS_PER_YEAR = 3600 * 24 * 365`. -/
def SECONDS_PER_YEAR : ℕ := 3600 * 24 * 365

/-- Spark derivation: `annualApy = (Math.pow(ssrFloat, SECONDS_PER_YEAR) - 1) * 100`. -/
def sparkDeriveApy (ssrFloat : ℚ) : ℚ := (ssrFloat ^ SECONDS_PER_YEAR - 1) * 100

/-- The target timestamps of one run: `lastTimestamp + i * interval` for
`i = 1 .. intervalsToProcess`. -/
def intervalTargets (lastTimestamp interval : ℤ) (n : ℕ) : List ℤ :=
  (List.range n).map fun k => lastTimestamp + ((k : ℤ) + 1) * interval

/-- Per-interval loop of `fetchSparkApy`. `read t` is the `ssr()` reading (as
the scaled float) at the block resolved for target `t`; `none` covers a
missing block info, a reverting call, or empty return data, all of which
`continue`; a zero reading is also skipped. Each surviving interval writes a
point with the rounded APY. -/
def sparkSamples (read : ℤ → Option ℚ) (targets : List ℤ) : List Sample :=
  targets.filterMap fun t =>
    match read t with
    | none => none
    | some r => if r = 0 then none else some ⟨"spark", round2 (sparkDeriveApy r), 25, t⟩

/-- `fetchSparkApy()` for one run, with the wall clock, the chain readings and
the flush result supplied as inputs. Mirrors the source: compute
`intervalsToProcess = Math.floor((now - last) / interval)` (with `interval`
positive, JS `Math.floor` of the quotient is integer ediv); return untouched
if not positive; otherwise buffer one point per successful interval, flush,
and only after a successful flush set the tracker to
`lastTimestamp + intervalsToProcess * interval`. A flush failure is caught by
the outer `try`, skipping the tracker update. -/
def fetchSparkApy (lastTimestamp nowTimestamp : ℤ) (read : ℤ → Option ℚ)
    (flushOk : Bool) : RunResult :=
  let interval : ℤ := 8 * 3600
  let intervalsToProcess := (nowTimestamp - lastTimestamp) / interval
  if intervalsToProcess ≤ 0 then
    ⟨.skippedNoWork, lastTimestamp, [], false, []⟩
  else
    let samples := sparkSamples read (intervalTargets lastTimestamp interval intervalsToProcess.toNat)
    if flushOk then
      ⟨.completed, lastTimestamp + intervalsToProcess * interval, samples, true, samples⟩
    else
      ⟨.aborted, lastTimestamp, samples, true, []⟩

/-! ### scripts/mountain.js — fetchMountainApy -/

/-- Mountain derivation: `((currentMultiplier / previousMultiplier) - 1) * 100`. -/
def mountainDeriveApy (previousMultiplier currentMultiplier : ℚ) : ℚ :=
  (currentMultiplier / previousMultiplier - 1) * 100

/-- Per-interval loop of `fetchMountainApy`, carrying `previousMultiplier`.
`read t` is the `rewardMultiplier()` reading at the block for target `t`;
`none` (missing block / call error) and a zero reading both `continue`
WITHOUT updating `previousMultiplier`; a valid reading emits a point and
then sets `previousMultiplier = currentMultiplier`. -/
def mountainSamplesGo (read : ℤ → Option ℚ) (previousMultiplier : ℚ) :
    List ℤ → List Sample
  | [] => []
  | t :: rest =>
    match read t with
    | none => mountainSamplesGo read previousMultiplier rest
    | some m =>
      if m = 0 then mountainSamplesGo read previousMultiplier rest
      else
        ⟨"mountain", round2 (mountainDeriveApy previousMultiplier m), 25, t⟩ ::
          mountainSamplesGo read m rest

/-- `fetchMountainApy()` for one run. As in the source: plan the intervals;
seed `previousMultiplier` from `rewardMultiplier()` at the block resolved for
`lastTimestamp` (an error there propagates to the outer `catch`, aborting the
run before anything is buffered); iterate; flush; only a successful flush
reaches the tracker update `lastTimestamp + intervalsToProcess * interval`. -/
def fetchMountainApy (lastTimestamp nowTimestamp : ℤ) (read : ℤ → Option ℚ)
    (flushOk : Bool) : RunResult :=
  let interval : ℤ := 24 * 3600
  let intervalsToProcess := (nowTimestamp - lastTimestamp) / interval
  if intervalsToProcess ≤ 0 then
    ⟨.skippedNoWork, lastTimestamp, [], false, []⟩
  else
    match read lastTimestamp with
    | none => ⟨.aborted, lastTimestamp, [], false, []⟩
    | some seed =>
      let samples := mountainSamplesGo read seed
        (intervalTargets lastTimestamp interval intervalsToProcess.toNat)
      if flushOk then
        ⟨.completed, lastTimestamp + intervalsToProcess * interval, samples, true, samples⟩
      else
        ⟨.aborted, lastTimestamp, samples, true, []⟩

/-! ### scripts/spark.js (second module) — fetchEthenaApy -/

/-- One log returned by `provider.getLogs`: its block number and its decoded
`data` field (`BigInt(log.data)`). -/
structure EthLog where
  blockNumber : ℤ
  data : ℤ
deriving DecidableEq

/-- Per-log loop of `fetchEthenaApy`. For each log, read `totalAssets()` at the
log's block and the block's timestamp; any error inside the loop body is
caught and that log is skipped. The point's APY is
`Number(data * 3n * 365n * 100n) / Number(totalAssets)` rounded to two
decimals. -/
def ethenaSamples (totalAssets : ℤ → Option ℤ) (blockTs : ℤ → Option ℤ) :
    List EthLog → List Sample :=
  List.filterMap fun log =>
    match totalAssets log.blockNumber, blockTs log.blockNumber with
    | some t, some ts =>
      some ⟨"ethena", round2 (((log.data * 3 * 365 * 100 : ℤ) : ℚ) / (t : ℚ)), 25, ts⟩
    | _, _ => none

/-- `fetchEthenaApy()` for one run. Mirrors the source order faithfully:
no new blocks → return untouched; no logs in the range → set the block
tracker to `latestBlock` and return without flushing; otherwise buffer one
point per processable log, then `setLastProcessedBlock(latestBlock)` and only
AFTER that call `flush()` — so a failing flush aborts the run with the
tracker already advanced and nothing committed. -/
def fetchEthenaApy (lastBlock latestBlock : ℤ) (logs : List EthLog)
    (totalAssets : ℤ → Option ℤ) (blockTs : ℤ → Option ℤ) (flushOk : Bool) :
    RunResult :=
  if latestBlock ≤ lastBlock then
    ⟨.skippedNoWork, lastBlock, [], false, []⟩
  else
    match logs with
    | [] => ⟨.completed, latestBlock, [], false, []⟩
    | _ :: _ =>
      let samples := ethenaSamples totalAssets blockTs logs
      if flushOk then
        ⟨.completed, latestBlock, samples, true, samples⟩
      else
        ⟨.aborted, latestBlock, samples, true, []⟩

/-! ### scripts/morpho.js — fetchMorphoApy (one vault) -/

/-- One point of the GraphQL response `historicalState.apy`: `{x, y}` with `x`
a Unix timestamp and `y` a fractional APY. -/
structure MorphoPoint where
  x : ℤ
  y : ℚ
deriving DecidableEq

/-- Points written for one vault: `apy = parseFloat((y * 100).toFixed(2))`,
tagged `morpho-<vault>`, timestamped at `x`. -/
def morphoSamples (vaultKey : String) (weight : ℚ) (apyData : List MorphoPoint) :
    List Sample :=
  apyData.map fun p => ⟨"morpho-" ++ vaultKey, round2 (p.y * 100), weight, p.x⟩

/-- The per-vault body of `fetchMorphoApy()`: empty response → `continue`
(nothing written, tracker untouched); otherwise write all points, flush, and
on success set the tracker to `apyData[0].x` (the FIRST returned point's
timestamp, bound to the variable `latestTimestamp` in the source). A failing
flush propagates to the outer `catch` before the tracker update. -/
def morphoVaultRun (vaultKey : String) (weight : ℚ) (apyData : List MorphoPoint)
    (cursor : ℤ) (flushOk : Bool) : RunResult :=
  match apyData with
  | [] => ⟨.skippedNoWork, cursor, [], false, []⟩
  | p :: _ =>
    let samples := morphoSamples vaultKey weight apyData
    if flushOk then
      ⟨.completed, p.x, samples, true, samples⟩
    else
      ⟨.aborted, cursor, samples, true, []⟩

/-! ### Theorems -/

theorem lookupEntry_setEntry (entries : List (String × ℤ)) (p q : String) (t : ℤ)
    (hpq : q ≠ p) : lookupEntry (setEntry entries p t) q = lookupEntry entries q := by
  induction entries with
  | nil => simp [setEntry, lookupEntry, Ne.symm hpq]
  | cons a rest ih =>
    obtain ⟨a1, a2⟩ := a
    by_cases h : a1 = p
    · subst h
      simp [setEntry, lookupEntry, Ne.symm hpq]
    · simp [setEntry, lookupEntry, h, ih]

/-- Claim C10: `setLastFetchedTimestamp(protocol, t)` changes only the entry
for `protocol` in the shared timestamp tracker: for any other key `q`, a
subsequent `getLastFetchedTimestamp(q)` returns the same value as before the
call (whether or not `q` was present, and for every file state). -/
theorem setLastFetchedTimestamp_preserves_other_keys
    (f : TrackerFile) (p q : String) (t : ℤ) (hpq : q ≠ p) :
    getLastFetchedTimestamp (setLastFetchedTimestamp f p t) q =
      getLastFetchedTimestamp f q := by
  cases f with
  | absent => simp [setLastFetchedTimestamp, getLastFetchedTimestamp, lookupEntry, Ne.symm hpq]
  | corrupt => rfl
  | ok entries =>
    simp [setLastFetchedTimestamp, getLastFetchedTimestamp,
      lookupEntry_setEntry entries p q t hpq]

theorem setLastFetchedTimestamp_preserves_other_keys_witness :
    getLastFetchedTimestamp
        (setLastFetchedTimestamp (TrackerFile.ok [("spark", 5)]) "mountain" 9) "spark" =
      getLastFetchedTimestamp (TrackerFile.ok [("spark", 5)]) "spark" :=
  setLastFetchedTimestamp_preserves_other_keys (TrackerFile.ok [("spark", 5)])
    "mountain" "spark" 9 (by decide)

/-- Claim C6 (counterexample): when no persisted checkpoint exists, the
timestamp tracker returns `undefined` (`none`), not the documented genesis
value — e.g. `getLastFetchedTimestamp("spark")` with the file absent is not
`1726628400`; and the block tracker returns `undefined` when the file exists
but lacks the `lastBlock` key. -/
theorem cursor_genesis_default_counterexample :
    getLastFetchedTimestamp TrackerFile.absent "spark" = none ∧
    getLastFetchedTimestamp TrackerFile.absent "spark" ≠ some 1726628400 ∧
    getLastFetchedTimestamp TrackerFile.absent "mountain" ≠ some 1716552000 ∧
    getLastProcessedBlock (BlockFile.ok none) = none := by
  refine ⟨rfl, by decide, by decide, rfl⟩

/-- Claim C6 (amended): only the ethena block tracker has a coded genesis
default — `getLastProcessedBlock()` returns `INITIAL_BLOCK = 20206857` when
its file is absent or unreadable, but returns the stored value (possibly
missing) when the file parses; the timestamp tracker has no genesis defaults
at all — for every source key, an absent or unreadable file yields
`undefined`. -/
theorem cursor_genesis_default_amended :
    (getLastProcessedBlock BlockFile.absent = some INITIAL_BLOCK ∧
      getLastProcessedBlock BlockFile.corrupt = some INITIAL_BLOCK ∧
      INITIAL_BLOCK = 20206857) ∧
    (∀ b, getLastProcessedBlock (BlockFile.ok b) = b) ∧
    (∀ p, getLastFetchedTimestamp TrackerFile.absent p = none) ∧
    (∀ p, getLastFetchedTimestamp TrackerFile.corrupt p = none) :=
  ⟨⟨rfl, rfl, rfl⟩, fun _ => rfl, fun _ => rfl, fun _ => rfl⟩

/-- Claim C7: for every timestamp-unit run (spark, mountain) in which the
number of whole pending intervals `N = floor((now - last) / interval)` is not
positive, the run is a no-op: the terminal state is `SkippedNoWork`, the
cursor is unchanged, nothing is written to the sink, no flush is attempted
and nothing is committed. -/
theorem timestamp_run_noop_when_no_intervals
    (lastTimestamp nowTimestamp : ℤ) (read : ℤ → Option ℚ) (flushOk : Bool) :
    ((nowTimestamp - lastTimestamp) / (8 * 3600) ≤ 0 →
      fetchSparkApy lastTimestamp nowTimestamp read flushOk =
        ⟨.skippedNoWork, lastTimestamp, [], false, []⟩) ∧
    ((nowTimestamp - lastTimestamp) / (24 * 3600) ≤ 0 →
      fetchMountainApy lastTimestamp nowTimestamp read flushOk =
        ⟨.skippedNoWork, lastTimestamp, [], false, []⟩) := by
  constructor <;> intro h
  · simp only [fetchSparkApy]
    rw [if_pos (by omega : (nowTimestamp - lastTimestamp) / (8 * 3600 : ℤ) ≤ 0)]
  · simp only [fetchMountainApy]
    rw [if_pos (by omega : (nowTimestamp - lastTimestamp) / (24 * 3600 : ℤ) ≤ 0)]

theorem timestamp_run_noop_when_no_intervals_witness :
    fetchSparkApy 100 50 (fun _ => none) true =
      ⟨.skippedNoWork, 100, [], false, []⟩ ∧
    fetchMountainApy 100 50 (fun _ => none) true =
      ⟨.skippedNoWork, 100, [], false, []⟩ := by
  have h := timestamp_run_noop_when_no_intervals 100 50 (fun _ => none) true
  exact ⟨h.1 (by decide), h.2 (by decide)⟩

/-- Claim C1 fails on the ethena variant: `fetchEthenaApy` calls
`setLastProcessedBlock(latestBlock)` BEFORE `await writeApi.flush()`, so a run
whose flush fails (here: last block 10, latest 20, one log at block 15) ends
aborted with nothing committed to the sink, yet with the stored checkpoint
already advanced from 10 to 20 — a checkpoint write happened before the flush
succeeded. -/
theorem ethena_flush_failure_advances_checkpoint :
    (fetchEthenaApy 10 20 [⟨15, 5⟩] (fun _ => some 1000) (fun _ => some 99)
        false).outcome = .aborted ∧
    (fetchEthenaApy 10 20 [⟨15, 5⟩] (fun _ => some 1000) (fun _ => some 99)
        false).committed = [] ∧
    (fetchEthenaApy 10 20 [⟨15, 5⟩] (fun _ => some 1000) (fun _ => some 99)
        false).cursor = 20 ∧
    (10 : ℤ) ≠ 20 :=
  ⟨rfl, rfl, rfl, by decide⟩

/-- Claim C5 fails: for the external-series-passthrough variant, after a run
with a non-empty ordered (ascending) response and a successful flush, the
stored checkpoint is the FIRST returned point's timestamp `apyData[0].x`, not
the latest one — here the response holds timestamps 100 and 200 and the
cursor is set to 100, although the returned point at 200 is later. -/
theorem morpho_checkpoint_is_first_point :
    (morphoVaultRun "USDC" (25 / 2) [⟨100, 1 / 100⟩, ⟨200, 2 / 100⟩] 0
        true).outcome = .completed ∧
    (morphoVaultRun "USDC" (25 / 2) [⟨100, 1 / 100⟩, ⟨200, 2 / 100⟩] 0
        true).cursor = 100 ∧
    (200 : ℤ) ∈ ([⟨100, 1 / 100⟩, ⟨200, 2 / 100⟩] : List MorphoPoint).map
        MorphoPoint.x ∧
    (100 : ℤ) < 200 :=
  ⟨rfl, rfl, by decide, by decide⟩

/-- Claim C2: for every timestamp-unit run (spark at 8h, mountain at 24h)
that ends in the `Completed` terminal state, the new cursor equals
`lastTimestamp + N * interval` for the `N = floor((now - last) / interval)`
computed at plan time, and is strictly greater than the prior cursor —
independently of which individual intervals were skipped (the readings
`read` are arbitrary). -/
theorem completed_run_advances_checkpoint
    (lastTimestamp nowTimestamp : ℤ) (read : ℤ → Option ℚ) (flushOk : Bool) :
    ((fetchSparkApy lastTimestamp nowTimestamp read flushOk).outcome = .completed →
      (fetchSparkApy lastTimestamp nowTimestamp read flushOk).cursor =
          lastTimestamp + (nowTimestamp - lastTimestamp) / (8 * 3600) * (8 * 3600) ∧
        lastTimestamp < (fetchSparkApy lastTimestamp nowTimestamp read flushOk).cursor) ∧
    ((fetchMountainApy lastTimestamp nowTimestamp read flushOk).outcome = .completed →
      (fetchMountainApy lastTimestamp nowTimestamp read flushOk).cursor =
          lastTimestamp + (nowTimestamp - lastTimestamp) / (24 * 3600) * (24 * 3600) ∧
        lastTimestamp < (fetchMountainApy lastTimestamp nowTimestamp read flushOk).cursor) := by
  constructor
  · by_cases hn : (nowTimestamp - lastTimestamp) / (8 * 3600 : ℤ) ≤ 0
    · simp only [fetchSparkApy]
      rw [if_pos hn]
      intro hout
      exact absurd hout (by simp)
    · simp only [fetchSparkApy]
      rw [if_neg hn]
      cases flushOk with
      | false =>
        intro hout
        exact absurd hout (by simp)
      | true =>
        intro _
        refine ⟨rfl, ?_⟩
        show lastTimestamp <
          lastTimestamp + (nowTimestamp - lastTimestamp) / (8 * 3600) * (8 * 3600)
        omega
  · by_cases hn : (nowTimestamp - lastTimestamp) / (24 * 3600 : ℤ) ≤ 0
    · simp only [fetchMountainApy]
      rw [if_pos hn]
      intro hout
      exact absurd hout (by simp)
    · simp only [fetchMountainApy]
      rw [if_neg hn]
      cases hr : read lastTimestamp with
      | none =>
        intro hout
        exact absurd hout (by simp)
      | some seed =>
        cases flushOk with
        | false =>
          intro hout
          exact absurd hout (by simp)
        | true =>
          intro _
          refine ⟨rfl, ?_⟩
          show lastTimestamp <
            lastTimestamp + (nowTimestamp - lastTimestamp) / (24 * 3600) * (24 * 3600)
          omega

theorem completed_run_advances_checkpoint_witness :
    (fetchSparkApy 0 28800 (fun _ => none) true).cursor =
        0 + (28800 - 0) / (8 * 3600) * (8 * 3600) ∧
    (0 : ℤ) < (fetchSparkApy 0 28800 (fun _ => none) true).cursor ∧
    (fetchMountainApy 0 86400 (fun _ => some 1) true).cursor =
        0 + (86400 - 0) / (24 * 3600) * (24 * 3600) ∧
    (0 : ℤ) < (fetchMountainApy 0 86400 (fun _ => some 1) true).cursor := by
  have hs := (completed_run_advances_checkpoint 0 28800 (fun _ => none) true).1
    (by decide)
  have hm := (completed_run_advances_checkpoint 0 86400 (fun _ => some 1) true).2
    (by decide)
  exact ⟨hs.1, hs.2, hm.1, hm.2⟩

theorem mountainSamplesGo_step_valid (read : ℤ → Option ℚ) (prev m : ℚ) (t : ℤ)
    (rest : List ℤ) (hr : read t = some m) (hm : m ≠ 0) :
    mountainSamplesGo read prev (t :: rest) =
      ⟨"mountain", round2 (mountainDeriveApy prev m), 25, t⟩ ::
        mountainSamplesGo read m rest := by
  rw [mountainSamplesGo, hr]
  simp [hm]

theorem mountainSamplesGo_step_zero (read : ℤ → Option ℚ) (prev : ℚ) (t : ℤ)
    (rest : List ℤ) (hr : read t = some 0) :
    mountainSamplesGo read prev (t :: rest) = mountainSamplesGo read prev rest := by
  rw [mountainSamplesGo, hr]
  simp

/-- Claim C4: skip-then-recover for the multiplier-ratio variant. In a run
planning exactly three intervals whose readings are `[valid m1, zero, valid
m3]` (with seed `m0` at the cursor block), the second interval is skipped and
the sample emitted for the third interval has APY `(m3 / m1 - 1) * 100`
(before the two-decimal formatting): the carried previous-multiplier state is
not advanced past the skipped zero reading, so the recovery is computed
against the last valid reading `m1`. -/
theorem mountain_skip_then_recover
    (lastTimestamp nowTimestamp : ℤ) (read : ℤ → Option ℚ) (flushOk : Bool)
    (m0 m1 m3 : ℚ)
    (hn : (nowTimestamp - lastTimestamp) / (24 * 3600) = 3)
    (h0 : read lastTimestamp = some m0)
    (h1 : read (lastTimestamp + 1 * (24 * 3600)) = some m1)
    (h2 : read (lastTimestamp + 2 * (24 * 3600)) = some 0)
    (h3 : read (lastTimestamp + 3 * (24 * 3600)) = some m3)
    (hm1 : m1 ≠ 0) (hm3 : m3 ≠ 0) :
    (fetchMountainApy lastTimestamp nowTimestamp read flushOk).writes =
      [⟨"mountain", round2 (mountainDeriveApy m0 m1), 25,
          lastTimestamp + 1 * (24 * 3600)⟩,
        ⟨"mountain", round2 ((m3 / m1 - 1) * 100), 25,
          lastTimestamp + 3 * (24 * 3600)⟩] := by
  have htargets : intervalTargets lastTimestamp (24 * 3600)
      ((nowTimestamp - lastTimestamp) / (24 * 3600)).toNat =
      [lastTimestamp + 1 * (24 * 3600), lastTimestamp + 2 * (24 * 3600),
        lastTimestamp + 3 * (24 * 3600)] := by
    rw [hn]
    rfl
  have hloop : mountainSamplesGo read m0
      [lastTimestamp + 1 * (24 * 3600), lastTimestamp + 2 * (24 * 3600),
        lastTimestamp + 3 * (24 * 3600)] =
      [⟨"mountain", round2 (mountainDeriveApy m0 m1), 25,
          lastTimestamp + 1 * (24 * 3600)⟩,
        ⟨"mountain", round2 (mountainDeriveApy m1 m3), 25,
          lastTimestamp + 3 * (24 * 3600)⟩] := by
    rw [mountainSamplesGo_step_valid read m0 m1 _ _ h1 hm1,
      mountainSamplesGo_step_zero read m1 _ _ h2,
      mountainSamplesGo_step_valid read m1 m3 _ _ h3 hm3,
      mountainSamplesGo]
  simp only [fetchMountainApy]
  rw [if_neg (by omega : ¬ (nowTimestamp - lastTimestamp) / (24 * 3600 : ℤ) ≤ 0)]
  rw [h0]
  cases flushOk with
  | false =>
    show mountainSamplesGo read m0 _ = _
    rw [htargets, hloop]
    rfl
  | true =>
    show mountainSamplesGo read m0 _ = _
    rw [htargets, hloop]
    rfl

theorem mountain_skip_then_recover_witness :
    (fetchMountainApy 0 259200
        (fun t => if t = 0 then some 1 else if t = 86400 then some 2
          else if t = 172800 then some 0 else some 3) true).writes =
      [⟨"mountain", round2 (mountainDeriveApy 1 2), 25, 0 + 1 * (24 * 3600)⟩,
        ⟨"mountain", round2 ((3 / 2 - 1) * 100), 25, 0 + 3 * (24 * 3600)⟩] := by
  exact mountain_skip_then_recover 0 259200
    (fun t => if t = 0 then some 1 else if t = 86400 then some 2
      else if t = 172800 then some 0 else some 3) true 1 2 3
    (by decide) (by norm_num) (by norm_num) (by norm_num) (by norm_num)
    (by norm_num) (by norm_num)

/-- Claim C8 (counterexample to the fixture): for the per-second rate
`r = 1.0000001 = 1 + 1/10000000`, the derived APY
`(r ^ 31536000 - 1) * 100` is NOT approximately `0.3197` percent — by
Bernoulli's inequality it already exceeds `300` percent (its true value is
about `2242` percent), so the documented fixture value is wrong by three
orders of magnitude. -/
theorem sparkDeriveApy_fixture_counterexample :
    300 < sparkDeriveApy (1 + 1 / 10000000) ∧
    sparkDeriveApy (1 + 1 / 10000000) ≠ 3197 / 10000 := by
  have hb : (1 : ℚ) + (31536000 : ℕ) * (1 / 10000000 : ℚ) ≤
      (1 + 1 / 10000000 : ℚ) ^ (31536000 : ℕ) :=
    one_add_mul_le_pow (by norm_num) 31536000
  have h300 : 300 < sparkDeriveApy (1 + 1 / 10000000) := by
    show (300 : ℚ) < ((1 + 1 / 10000000 : ℚ) ^ SECONDS_PER_YEAR - 1) * 100
    rw [show SECONDS_PER_YEAR = (31536000 : ℕ) from rfl]
    obtain ⟨P, hP⟩ : ∃ P : ℚ, (1 + 1 / 10000000 : ℚ) ^ (31536000 : ℕ) = P := ⟨_, rfl⟩
    rw [hP] at hb ⊢
    clear hP
    norm_num at hb
    linarith [hb]
  exact ⟨h300, by intro he; rw [he] at h300; norm_num at h300⟩

/-- Claim C8 (amended): the compounding-rate derivation in the code is
`APY% = (r ^ SECONDS_PER_YEAR - 1) * 100` with
`SECONDS_PER_YEAR = 3600 * 24 * 365 = 31536000`, exactly as the claim's
formula states; but at the fixture input `r = 1.0000001` the derived value is
at least `315` percent (in fact about `2242` percent), not approximately
`0.3197` percent. -/
theorem sparkDeriveApy_formula_amended :
    (∀ r : ℚ, sparkDeriveApy r = (r ^ (31536000 : ℕ) - 1) * 100) ∧
    315 ≤ sparkDeriveApy (1 + 1 / 10000000) := by
  constructor
  · intro r
    rfl
  · have hb : (1 : ℚ) + (31536000 : ℕ) * (1 / 10000000 : ℚ) ≤
        (1 + 1 / 10000000 : ℚ) ^ (31536000 : ℕ) :=
      one_add_mul_le_pow (by norm_num) 31536000
    show (315 : ℚ) ≤ ((1 + 1 / 10000000 : ℚ) ^ SECONDS_PER_YEAR - 1) * 100
    rw [show SECONDS_PER_YEAR = (31536000 : ℕ) from rfl]
    obtain ⟨P, hP⟩ : ∃ P : ℚ, (1 + 1 / 10000000 : ℚ) ^ (31536000 : ℕ) = P := ⟨_, rfl⟩
    rw [hP] at hb ⊢
    clear hP
    norm_num at hb
    linarith [hb]

theorem round2_twoDecimals (x : ℚ) : twoDecimals (round2 x) :=
  ⟨⌊x * 100 + 1 / 2⌋, rfl⟩

theorem sparkSamples_twoDecimals (read : ℤ → Option ℚ) (targets : List ℤ)
    (s : Sample) (hs : s ∈ sparkSamples read targets) : twoDecimals s.apy := by
  simp only [sparkSamples, List.mem_filterMap] at hs
  obtain ⟨t, -, h⟩ := hs
  cases hr : read t with
  | none => rw [hr] at h; simp at h
  | some r =>
    rw [hr] at h
    by_cases h0 : r = 0
    · simp [h0] at h
    · simp only [h0, if_false, Option.some.injEq] at h
      rw [← h]
      exact round2_twoDecimals _
  
theorem mountainSamplesGo_twoDecimals (read : ℤ → Option ℚ) :
    ∀ (targets : List ℤ) (prev : ℚ) (s : Sample),
      s ∈ mountainSamplesGo read prev targets → twoDecimals s.apy := by
  intro targets
  induction targets with
  | nil =>
    intro prev s hs
    simp [mountainSamplesGo] at hs
  | cons t rest ih =>
    intro prev s hs
    rw [mountainSamplesGo] at hs
    cases hr : read t with
    | none =>
      rw [hr] at hs
      exact ih prev s hs
    | some m =>
      rw [hr] at hs
      by_cases h0 : m = 0
      · simp only [h0, if_true, if_pos rfl] at hs
        exact ih prev s hs
      · simp only [h0, if_false] at hs
        rcases List.mem_cons.mp hs with h | h
        · subst h
          exact round2_twoDecimals _
        · exact ih m s h

theorem ethenaSamples_twoDecimals (totalAssets : ℤ → Option ℤ)
    (blockTs : ℤ → Option ℤ) (logs : List EthLog) (s : Sample)
    (hs : s ∈ ethenaSamples totalAssets blockTs logs) : twoDecimals s.apy := by
  simp only [ethenaSamples, List.mem_filterMap] at hs
  obtain ⟨log, -, h⟩ := hs
  cases hT : totalAssets log.blockNumber with
  | none => rw [hT] at h; simp at h
  | some T =>
    cases hB : blockTs log.blockNumber with
    | none => rw [hT, hB] at h; simp at h
    | some ts =>
      rw [hT, hB] at h
      simp only [Option.some.injEq] at h
      rw [← h]
      exact round2_twoDecimals _

theorem morphoSamples_twoDecimals (vaultKey : String) (weight : ℚ)
    (apyData : List MorphoPoint) (s : Sample)
    (hs : s ∈ morphoSamples vaultKey weight apyData) : twoDecimals s.apy := by
  simp only [morphoSamples, List.mem_map] at hs
  obtain ⟨p, -, h⟩ := hs
  rw [← h]
  exact round2_twoDecimals _

/-- Claim C9: every sample any of the four variants passes to the sink
carries not the raw derived APY but that value rounded to exactly two decimal
places (JS `parseFloat(x.toFixed(2))`): every written `apy` is an integer
number of hundredths, and e.g. a derived `27.375` percent is stored as
`27.38`. -/
theorem emitted_apy_two_decimals :
    (∀ (lastTimestamp nowTimestamp : ℤ) (read : ℤ → Option ℚ) (flushOk : Bool)
      (s : Sample), s ∈ (fetchSparkApy lastTimestamp nowTimestamp read flushOk).writes →
        twoDecimals s.apy) ∧
    (∀ (lastTimestamp nowTimestamp : ℤ) (read : ℤ → Option ℚ) (flushOk : Bool)
      (s : Sample), s ∈ (fetchMountainApy lastTimestamp nowTimestamp read flushOk).writes →
        twoDecimals s.apy) ∧
    (∀ (lastBlock latestBlock : ℤ) (logs : List EthLog)
      (totalAssets blockTs : ℤ → Option ℤ) (flushOk : Bool) (s : Sample),
        s ∈ (fetchEthenaApy lastBlock latestBlock logs totalAssets blockTs flushOk).writes →
        twoDecimals s.apy) ∧
    (∀ (vaultKey : String) (weight : ℚ) (apyData : List MorphoPoint)
      (cursor : ℤ) (flushOk : Bool) (s : Sample),
        s ∈ (morphoVaultRun vaultKey weight apyData cursor flushOk).writes →
        twoDecimals s.apy) ∧
    round2 (27375 / 1000) = 1369 / 50 := by
  refine ⟨?_, ?_, ?_, ?_, ?_⟩
  · intro lastTimestamp nowTimestamp read flushOk s hs
    simp only [fetchSparkApy] at hs
    by_cases hn : (nowTimestamp - lastTimestamp) / (8 * 3600 : ℤ) ≤ 0
    · rw [if_pos hn] at hs
      simp at hs
    · rw [if_neg hn] at hs
      cases flushOk with
      | false => exact sparkSamples_twoDecimals _ _ _ hs
      | true => exact sparkSamples_twoDecimals _ _ _ hs
  · intro lastTimestamp nowTimestamp read flushOk s hs
    simp only [fetchMountainApy] at hs
    by_cases hn : (nowTimestamp - lastTimestamp) / (24 * 3600 : ℤ) ≤ 0
    · rw [if_pos hn] at hs
      simp at hs
    · rw [if_neg hn] at hs
      cases hr : read lastTimestamp with
      | none =>
        rw [hr] at hs
        simp at hs
      | some seed =>
        rw [hr] at hs
        cases flushOk with
        | false => exact mountainSamplesGo_twoDecimals _ _ _ _ hs
        | true => exact mountainSamplesGo_twoDecimals _ _ _ _ hs
  · intro lastBlock latestBlock logs totalAssets blockTs flushOk s hs
    simp only [fetchEthenaApy] at hs
    by_cases hb : latestBlock ≤ lastBlock
    · rw [if_pos hb] at hs
      simp at hs
    · rw [if_neg hb] at hs
      cases logs with
      | nil => simp at hs
      | cons l ls =>
        cases flushOk with
        | false => exact ethenaSamples_twoDecimals _ _ _ _ hs
        | true => exact ethenaSamples_twoDecimals _ _ _ _ hs
  · intro vaultKey weight apyData cursor flushOk s hs
    cases apyData with
    | nil => simp [morphoVaultRun] at hs
    | cons p ps =>
      simp only [morphoVaultRun] at hs
      cases flushOk with
      | false => exact morphoSamples_twoDecimals _ _ _ _ hs
      | true => exact morphoSamples_twoDecimals _ _ _ _ hs
  · have hf : (⌊(27375 / 1000 : ℚ) * 100 + 1 / 2⌋ : ℤ) = 2738 := by
      rw [Int.floor_eq_iff]
      constructor <;> norm_num
    rw [round2, hf]
    norm_num

theorem emitted_apy_two_decimals_witness :
    twoDecimals (Sample.mk ("morpho-" ++ "USDC") (round2 ((9 / 200 : ℚ) * 100))
      (25 / 2) 100).apy := by
  have h := emitted_apy_two_decimals.2.2.2.1 "USDC" (25 / 2) [⟨100, 9 / 200⟩] 0 true
    ⟨"morpho-" ++ "USDC", round2 ((9 / 200 : ℚ) * 100), 25 / 2, 100⟩
    (by simp [morphoVaultRun, morphoSamples])
  exact h

theorem gbnbtGo_probe (f : ℤ → ℤ) (t : ℤ) (fuel : ℕ) (e l closest : ℤ)
    (h : e ≤ l) :
    gbnbtGo (fun b => some (f b)) t (fuel + 1) e l closest =
      if f ((e + l) / 2) = t then (e + l) / 2
      else if f ((e + l) / 2) < t then
        gbnbtGo (fun b => some (f b)) t fuel ((e + l) / 2 + 1) l ((e + l) / 2)
      else gbnbtGo (fun b => some (f b)) t fuel e ((e + l) / 2 - 1) closest := by
  rw [gbnbtGo, if_pos h]

theorem gbnbtGo_stop (getBlock : ℤ → Option ℤ) (t : ℤ) (fuel : ℕ)
    (e l closest : ℤ) (h : ¬ e ≤ l) :
    gbnbtGo getBlock t (fuel + 1) e l closest = closest := by
  rw [gbnbtGo, if_neg h]

theorem gbnbtGo_correct (f : ℤ → ℤ) (hf : StrictMono f) (t latest : ℤ)
    (hlatest : 0 ≤ latest) :
    ∀ (fuel : ℕ) (e l closest : ℤ),
      (l + 1 - e).toNat < fuel →
      0 ≤ e → e ≤ l + 1 → l ≤ latest →
      0 ≤ closest → closest ≤ latest → f closest ≤ t →
      (e = 0 ∧ closest = 0 ∨ closest = e - 1) →
      (∀ b, 0 ≤ b → b < e → f b ≤ t) →
      (∀ b, l < b → b ≤ latest → t < f b) →
      f (gbnbtGo (fun b => some (f b)) t fuel e l closest) ≤ t ∧
      0 ≤ gbnbtGo (fun b => some (f b)) t fuel e l closest ∧
      gbnbtGo (fun b => some (f b)) t fuel e l closest ≤ latest ∧
      (gbnbtGo (fun b => some (f b)) t fuel e l closest = latest ∨
        t < f (gbnbtGo (fun b => some (f b)) t fuel e l closest + 1)) := by
  intro fuel
  induction fuel with
  | zero =>
    intro e l closest hfuel
    omega
  | succ fuel ih =>
    intro e l closest hfuel he hel hl hc0 hcl hfc hC hA hB
    by_cases hcase : e ≤ l
    · have hmid1 : e ≤ (e + l) / 2 := by omega
      have hmid2 : (e + l) / 2 ≤ l := by omega
      rw [gbnbtGo_probe f t fuel e l closest hcase]
      by_cases ht : f ((e + l) / 2) = t
      · rw [if_pos ht]
        refine ⟨le_of_eq ht, by omega, by omega, Or.inr ?_⟩
        have hstep := hf (show (e + l) / 2 < (e + l) / 2 + 1 by omega)
        rw [ht] at hstep
        exact hstep
      · rw [if_neg ht]
        by_cases hlt : f ((e + l) / 2) < t
        · rw [if_pos hlt]
          refine ih ((e + l) / 2 + 1) l ((e + l) / 2) (by omega) (by omega)
            (by omega) hl (by omega) (by omega) (le_of_lt hlt)
            (Or.inr (by omega)) ?_ hB
          intro b hb0 hb
          have hble : b ≤ (e + l) / 2 := by omega
          exact le_trans (hf.monotone hble) (le_of_lt hlt)
        · rw [if_neg hlt]
          have ht2 : t < f ((e + l) / 2) :=
            lt_of_le_of_ne (not_lt.mp hlt) (Ne.symm ht)
          refine ih e ((e + l) / 2 - 1) closest (by omega) he (by omega)
            (by omega) hc0 hcl hfc hC hA ?_
          intro b hb1 hb2
          have hmb : (e + l) / 2 ≤ b := by omega
          exact lt_of_lt_of_le ht2 (hf.monotone hmb)
    · rw [gbnbtGo_stop]
      · rcases hC with ⟨he0, hc0eq⟩ | hce
        · exfalso
          have h0 : t < f 0 := hB 0 (by omega) hlatest
          rw [hc0eq] at hfc
          exact absurd hfc (not_le.mpr h0)
        · refine ⟨hfc, hc0, hcl, ?_⟩
          by_cases hcl2 : closest = latest
          · exact Or.inl hcl2
          · refine Or.inr (hB (closest + 1) (by omega) (by omega))
      · exact hcase

/-- Claim C3 (amended): for every strictly monotone block-to-timestamp oracle
in which every probed block is available, every chain height `latest ≥ 0` and
every target `t` not earlier than the genesis block's timestamp
(`f 0 ≤ t`), the binary search returns a block `b` with `0 ≤ b ≤ latest`,
`timestamp(b) ≤ t`, and either `b = latest` (the upper boundary) or
`timestamp(b+1) > t`; when `t` is earlier than the genesis timestamp the
search instead returns block `0`, whose timestamp strictly exceeds `t` (see
the counterexample), and when a probe is unavailable the loop breaks and
returns the best candidate found so far. -/
theorem getBlockNumberByTimestamp_correct (f : ℤ → ℤ) (hf : StrictMono f)
    (latestBlock targetTimestamp : ℤ) (hlatest : 0 ≤ latestBlock)
    (hgen : f 0 ≤ targetTimestamp) :
    f (getBlockNumberByTimestamp (fun b => some (f b)) latestBlock
        targetTimestamp) ≤ targetTimestamp ∧
    0 ≤ getBlockNumberByTimestamp (fun b => some (f b)) latestBlock
        targetTimestamp ∧
    getBlockNumberByTimestamp (fun b => some (f b)) latestBlock
        targetTimestamp ≤ latestBlock ∧
    (getBlockNumberByTimestamp (fun b => some (f b)) latestBlock
        targetTimestamp = latestBlock ∨
      targetTimestamp < f (getBlockNumberByTimestamp (fun b => some (f b))
        latestBlock targetTimestamp + 1)) := by
  have h := gbnbtGo_correct f hf targetTimestamp latestBlock hlatest
    (latestBlock + 2).toNat 0 latestBlock 0
    (by omega) (le_refl 0) (by omega) (le_refl latestBlock) (le_refl 0)
    hlatest hgen (Or.inl ⟨rfl, rfl⟩)
    (by intro b hb0 hb; omega) (by intro b hb1 hb2; omega)
  exact h

theorem getBlockNumberByTimestamp_correct_witness :
    getBlockNumberByTimestamp (fun b => some b) 10 3 = 3 := by
  have h := getBlockNumberByTimestamp_correct (fun b => b)
    (fun a b hab => hab) 10 3 (by norm_num) (by norm_num)
  obtain ⟨h1, h2, h3, h4⟩ := h
  simp only at h1 h2 h3 h4
  omega

/-- Claim C3 (counterexample): with the monotone, fully available oracle
`timestamp(b) = b + 10`, chain height `5` and target `t = 3` (earlier than
the genesis timestamp `10`), the search returns block `0` although that
block's timestamp `10` is strictly greater than the target — refuting
"never returns a block whose timestamp is strictly greater than t". -/
theorem getBlockNumberByTimestamp_counterexample :
    getBlockNumberByTimestamp (fun b => some (b + 10)) 5 3 = 0 ∧
    (fun b : ℤ => some (b + 10))
        (getBlockNumberByTimestamp (fun b => some (b + 10)) 5 3) = some 10 ∧
    (3 : ℤ) < 10 := by
  refine ⟨by decide, by decide, by decide⟩
